import Mathlib

/-
Verification of the cloud-audit dashboard core.

Part 1 models the scan-diff and trend/forecast engines. The repository
ships only the browser dashboard; the diff and forecast computations are
consumed through the REST endpoints /scans/diff and /analytics/forecast,
so their bodies are not in the frontend sources. They are modelled here
from the specification (sections 4.1 and 4.2 of spec.md), faithful to the
described algorithm. Floating point numbers are modelled as rationals.

Part 2 embeds the client-side logic that is present in the sources:
the usePagination hook (components/resources/Pagination.jsx), the
ResourceFilter list filtering (components/resources/ResourceFilter.jsx)
and isAuthenticated (services/authService.js).
-/

/-- Modelled from the spec: one discovered cloud resource at one point in
time (spec.md section 3, ResourceRecord). The open raw_data map is opaque
to the diff engine and omitted; resource_type is kept as a string. -/
structure ResourceRecord where
  resource_id : String
  resource_type : String
  region : String
  name : Option String
  state : Option String
  deriving DecidableEq, Repr

/-- Modelled from the spec: one rule failure detected for one resource in
one scan (spec.md section 3, ViolationRecord). -/
structure ViolationRecord where
  rule_id : String
  resource_id : String
  resource_type : String
  region : String
  severity : String
  message : String
  deriving DecidableEq, Repr

/-- Modelled from the spec: immutable result of one scan (spec.md
section 3, ScanSnapshot). Resource and violation sets are lists;
monthly_waste_estimate is a rational standing for the float. -/
structure ScanSnapshot where
  scan_id : String
  status : String
  resources : List ResourceRecord
  violations : List ViolationRecord
  monthly_waste_estimate : Rat
  deriving DecidableEq, Repr

/-- Modelled from the spec: a state-change entry of a diff, carrying the
identifying fields taken from the record of scan B (the newer observation)
plus old_state from A and new_state from B (spec.md section 4.1 step 4). -/
structure StateChange where
  resource_id : String
  resource_type : String
  region : String
  name : Option String
  old_state : Option String
  new_state : Option String
  deriving DecidableEq, Repr

/-- Modelled from the spec: the summary counts of a ScanDiff (spec.md
section 4.1 step 9). -/
structure DiffSummary where
  resources_added : Nat
  resources_removed : Nat
  state_changes : Nat
  new_violations : Nat
  fixed_violations : Nat
  waste_delta : Rat
  deriving DecidableEq, Repr

/-- Modelled from the spec: output of comparing two ScanSnapshots
(spec.md section 3, ScanDiff). -/
structure ScanDiff where
  added_resources : List ResourceRecord
  removed_resources : List ResourceRecord
  state_changes : List StateChange
  new_violations : List ViolationRecord
  fixed_violations : List ViolationRecord
  waste_delta : Rat
  summary : DiffSummary
  deriving DecidableEq, Repr

/-- Modelled from the spec: the error taxonomy of the two engines
(spec.md section 7). -/
inductive EngineError where
  | invalidInput
  | insufficientData
  deriving DecidableEq, Repr

/-- Modelled from the spec: the resource join key resource_id plus
resource_type (spec.md section 4.3, matchKey). -/
def resKey (r : ResourceRecord) : String × String :=
  (r.resource_id, r.resource_type)

/-- Modelled from the spec: the violation join key rule_id plus
resource_id (spec.md section 4.3, matchKey). -/
def vioKey (v : ViolationRecord) : String × String :=
  (v.rule_id, v.resource_id)

/-- Modelled from the spec: state normalization for the field comparison
pass, case-insensitive trim (spec.md section 4.1 step 4); a missing state
normalizes like the empty string. -/
def normState (s : Option String) : String :=
  (s.getD "").trim.toLower

/-- Whether some record of the list carries the given resource key. -/
def hasResKey (l : List ResourceRecord) (k : String × String) : Bool :=
  l.any fun r => resKey r == k

/-- Whether some record of the list carries the given violation key. -/
def hasVioKey (l : List ViolationRecord) (k : String × String) : Bool :=
  l.any fun v => vioKey v == k

/-- The state-change entry built from the baseline record a and the
comparison record b: identifying fields from b, old_state from a. -/
def mkStateChange (a b : ResourceRecord) : StateChange :=
  { resource_id := b.resource_id
    resource_type := b.resource_type
    region := b.region
    name := b.name
    old_state := a.state
    new_state := b.state }

/-- Modelled from the spec: the scan-diff engine, computeDiff (spec.md
section 4.1). Fails with InvalidInputError unless both snapshots have
status completed; otherwise the per-key set differences, the state
comparison pass over the intersection, and the waste delta. -/
def computeDiff (scanA scanB : ScanSnapshot) : Except EngineError ScanDiff :=
  if scanA.status == "completed" && scanB.status == "completed" then
    let added := scanB.resources.filter fun r => !(hasResKey scanA.resources (resKey r))
    let removed := scanA.resources.filter fun r => !(hasResKey scanB.resources (resKey r))
    let changes := scanB.resources.filterMap fun r =>
      match scanA.resources.find? (fun a => resKey a == resKey r) with
      | some a =>
        if normState a.state == normState r.state then none else some (mkStateChange a r)
      | none => none
    let newV := scanB.violations.filter fun v => !(hasVioKey scanA.violations (vioKey v))
    let fixedV := scanA.violations.filter fun v => !(hasVioKey scanB.violations (vioKey v))
    let delta := scanB.monthly_waste_estimate - scanA.monthly_waste_estimate
    Except.ok
      { added_resources := added
        removed_resources := removed
        state_changes := changes
        new_violations := newV
        fixed_violations := fixedV
        waste_delta := delta
        summary :=
          { resources_added := added.length
            resources_removed := removed.length
            state_changes := changes.length
            new_violations := newV.length
            fixed_violations := fixedV.length
            waste_delta := delta } }
  else
    Except.error EngineError.invalidInput

/-- Modelled from the spec: the unchanged part of the intersection, the
records of B whose key also occurs in A with an unchanged normalized
state (spec.md section 8, Conservation: the unchanged keys). -/
def unchangedResources (scanA scanB : ScanSnapshot) : List ResourceRecord :=
  scanB.resources.filter fun r =>
    match scanA.resources.find? (fun a => resKey a == resKey r) with
    | some a => normState a.state == normState r.state
    | none => false

/-- Key of a state-change entry, for the conservation property. -/
def scKey (c : StateChange) : String × String :=
  (c.resource_id, c.resource_type)

/-- Modelled from the spec: one point of a TrendSeries (spec.md
section 3); started_at is a rational timestamp measured in days. -/
structure TrendPoint where
  scan_index : Nat
  started_at : Rat
  total_resources : Nat
  total_violations : Nat
  critical_violations : Nat
  total_monthly_waste : Rat
  deriving DecidableEq, Repr, Inhabited

/-- Modelled from the spec: output of trend analysis over a TrendSeries
(spec.md section 3, ForecastResult). -/
structure ForecastResult where
  current_monthly_waste : Rat
  data_points : Nat
  slope_per_period : Rat
  trend : String
  forecast_30d : Rat
  forecast_60d : Rat
  forecast_90d : Rat
  potential_savings_if_actioned : Rat
  savings_percentage : Rat
  deriving DecidableEq, Repr

/-- Modelled from the spec: the ordinary-least-squares slope of
total_monthly_waste against scan_index (spec.md section 4.2 step 1),
with the degenerate all-equal-x case answered by a zero slope. -/
def olsSlope (series : List TrendPoint) : Rat :=
  let n : Rat := series.length
  let sx := (series.map fun p => (p.scan_index : Rat)).sum
  let sy := (series.map fun p => p.total_monthly_waste).sum
  let sxy := (series.map fun p => (p.scan_index : Rat) * p.total_monthly_waste).sum
  let sxx := (series.map fun p => (p.scan_index : Rat) * (p.scan_index : Rat)).sum
  let denom := n * sxx - sx * sx
  if denom = 0 then 0 else (n * sxy - sx * sy) / denom

/-- Modelled from the spec: the ordinary-least-squares intercept paired
with olsSlope (spec.md section 4.2 step 1). -/
def olsIntercept (series : List TrendPoint) : Rat :=
  ((series.map fun p => p.total_monthly_waste).sum -
      olsSlope series * (series.map fun p => (p.scan_index : Rat)).sum) /
    (series.length : Rat)

/-- The latest point of the series; the default point is never reached on
a series accepted by computeForecast. -/
def lastPoint (series : List TrendPoint) : TrendPoint :=
  series.getLast?.getD default

/-- Modelled from the spec: the latest total_monthly_waste of the series
(spec.md section 3, current_monthly_waste). -/
def currentWaste (series : List TrendPoint) : Rat :=
  (lastPoint series).total_monthly_waste

/-- Modelled from the spec: the average inter-scan interval in days,
computed from the started_at deltas (spec.md section 4.2 step 4). -/
def avgScanGap (series : List TrendPoint) : Rat :=
  ((lastPoint series).started_at - (series.head?.getD default).started_at) /
    ((series.length : Rat) - 1)

/-- Modelled from the spec: the number of regression periods that span
the given number of calendar days, scaled by the observed average
inter-scan interval; when that interval is not positive each scan counts
as one period (spec.md section 4.2 step 4). -/
def periodsAhead (series : List TrendPoint) (days : Rat) : Rat :=
  if 0 < avgScanGap series then days / avgScanGap series else days

/-- Modelled from the spec: the projection of waste the given number of
days ahead of the latest index, clamped to the zero floor (spec.md
section 4.2 steps 4 and 6). -/
def projectWaste (series : List TrendPoint) (days : Rat) : Rat :=
  max 0 (olsSlope series * (((lastPoint series).scan_index : Rat) + periodsAhead series days) +
    olsIntercept series)

/-- Modelled from the spec: trend classification from the slope sign
against the noise epsilon (spec.md section 4.2 step 3). -/
def classifyTrend (m eps : Rat) : String :=
  if m > eps then "increasing" else if m < -eps then "decreasing" else "stable"

/-- Modelled from the spec: the trend/forecast engine, computeForecast
(spec.md section 4.2). Fails with InsufficientDataError on a series of
fewer than two points; otherwise ordinary least squares over the series,
trend classification against an epsilon of one percent of current waste,
day-scaled 30/60/90-day projections with a zero floor, and the savings
realization percentage applied to current waste. -/
def computeForecast (series : List TrendPoint) (savingsPct : Rat) :
    Except EngineError ForecastResult :=
  if series.length < 2 then
    Except.error EngineError.insufficientData
  else
    Except.ok
      { current_monthly_waste := currentWaste series
        data_points := series.length
        slope_per_period := olsSlope series
        trend := classifyTrend (olsSlope series) (currentWaste series / 100)
        forecast_30d := projectWaste series 30
        forecast_60d := projectWaste series 60
        forecast_90d := projectWaste series 90
        potential_savings_if_actioned := currentWaste series * savingsPct / 100
        savings_percentage := savingsPct }

/-- JavaScript Array.prototype.slice: negative indices count from the end
of the array, and both bounds are clamped to the array range. -/
def jsSlice {α : Type} (l : List α) (start stop : Int) : List α :=
  let len : Int := l.length
  let s := if start < 0 then max (len + start) 0 else min start len
  let e := if stop < 0 then max (len + stop) 0 else min stop len
  (l.take e.toNat).drop s.toNat

/-- Result record of the usePagination hook
(components/resources/Pagination.jsx): page is the clamped safePage the
hook returns, from_ and to_ are the one-based display bounds (the object
keys from and to in the source). -/
structure PaginationResult (α : Type) where
  page : Int
  pageSize : Nat
  paged : List α
  totalPages : Nat
  from_ : Int
  to_ : Int
  total : Nat
  deriving DecidableEq, Repr

/-- The usePagination hook (components/resources/Pagination.jsx, lines
7 to 35) with the page and pageSize state made explicit arguments:
totalPages is the ceiling of length over pageSize floored at 1, safePage
is the minimum of page and totalPages, and paged is the slice of the
items from (safePage - 1) * pageSize of length pageSize. -/
def usePagination {α : Type} (items : List α) (page : Int) (pageSize : Nat) :
    PaginationResult α :=
  let totalPages := max 1 ((items.length + pageSize - 1) / pageSize)
  let safePage := min page (totalPages : Int)
  let start := (safePage - 1) * (pageSize : Int)
  let paged := jsSlice items start (start + pageSize)
  { page := safePage
    pageSize := pageSize
    paged := paged
    totalPages := totalPages
    from_ := if items.length = 0 then 0 else (safePage - 1) * (pageSize : Int) + 1
    to_ := min (safePage * (pageSize : Int)) (items.length : Int)
    total := items.length }

/-- Prefix test on character lists, auxiliary to the substring test. -/
def chStartsWith : List Char → List Char → Bool
  | _, [] => true
  | [], _ :: _ => false
  | h :: hs, n :: ns => h == n && chStartsWith hs ns

/-- Substring test on character lists, JavaScript String.includes. -/
def chContains : List Char → List Char → Bool
  | [], needle => chStartsWith [] needle
  | h :: t, needle => chStartsWith (h :: t) needle || chContains t needle

/-- JavaScript String.prototype.includes. -/
def strIncludes (hay needle : String) : Bool :=
  chContains hay.data needle.data

/-- One row of a resource table as ResourceFilter reads it: the fields
joined for the search match, plus the open raw_data map with the values
already rendered to strings (the source applies String(...) to them). -/
structure ResourceRow where
  name : Option String
  resource_id : String
  state : Option String
  region : String
  raw_data : List (String × String)
  deriving DecidableEq, Repr

/-- The base search text of a row: name, resource_id, state and region
joined by spaces, a missing field contributing the empty string exactly
as undefined does in the JavaScript Array.join. -/
def rowBaseText (r : ResourceRow) : String :=
  String.intercalate " " [r.name.getD "", r.resource_id, r.state.getD "", r.region]

/-- Lookup of one raw_data field of a row, the empty string when absent,
as String(r.raw_data?.[f] ?? "") renders it. -/
def rawFieldText (r : ResourceRow) (f : String) : String :=
  ((r.raw_data.find? fun kv => kv.1 == f).map Prod.snd).getD ""

/-- The query match of ResourceFilter for one row: the lowercased base
text or the lowercased joined extra fields contains the lowercased
query. -/
def rowMatches (extraFields : List String) (q : String) (r : ResourceRow) : Bool :=
  strIncludes (rowBaseText r).toLower q ||
    strIncludes (String.intercalate " " (extraFields.map (rawFieldText r))).toLower q

/-- The filtering pass of ResourceFilter
(components/resources/ResourceFilter.jsx, lines 21 to 37): the list
handed to onFiltered, first narrowed by region unless the selection is
all, then by the search query unless it trims to empty. -/
def resourceFilter (items : List ResourceRow) (query region : String)
    (extraFields : List String) : List ResourceRow :=
  let byRegion := if region == "all" then items else items.filter fun r => r.region == region
  if query.trim == "" then byRegion
  else byRegion.filter (rowMatches extraFields query.toLower)

/-- The second dot-separated segment of a JWT as the source extracts it:
token.split(".")[1], which when the segment does not exist is undefined
and is coerced by atob to the string undefined. -/
def jwtSegment (t : String) : String :=
  ((t.splitOn ".")[1]?).getD "undefined"

/-- The isAuthenticated check (services/authService.js, lines 53 to 62),
with the browser builtins passed in as total functions: atobF returns
none when atob would throw, parseExpF returns none when JSON.parse would
throw, some none when the parsed payload carries no numeric exp (the
multiplication then yields NaN and the comparison is false), and
some (some e) for a numeric exp claim e in seconds. A missing token is
none; the empty string is falsy in the source guard. Every throwing step
of the source sits inside the try/catch that returns false. -/
def isAuthenticated (atobF : String → Option String)
    (parseExpF : String → Option (Option Rat))
    (token : Option String) (now : Rat) : Bool :=
  match token with
  | none => false
  | some t =>
    if t == "" then false
    else
      match atobF (jwtSegment t) with
      | none => false
      | some payload =>
        match parseExpF payload with
        | none => false
        | some none => false
        | some (some e) => decide (e * 1000 > now)

/-- Sample resource used by concrete witnesses. -/
def sampleRes : ResourceRecord :=
  { resource_id := "i-1", resource_type := "EC2", region := "us-east-1"
    name := some "web", state := some "running" }

/-- Second sample resource used by concrete witnesses. -/
def sampleRes2 : ResourceRecord :=
  { resource_id := "i-2", resource_type := "EBS", region := "us-east-1"
    name := none, state := none }

/-- Sample violation used by concrete witnesses. -/
def sampleVio : ViolationRecord :=
  { rule_id := "EC2-002", resource_id := "i-1", resource_type := "EC2"
    region := "us-east-1", severity := "HIGH", message := "open port" }

/-- Sample completed snapshot used by concrete witnesses. -/
def sampleScan : ScanSnapshot :=
  { scan_id := "s1", status := "completed", resources := [sampleRes, sampleRes2]
    violations := [sampleVio], monthly_waste_estimate := 7 }

/-- Sample running snapshot used by concrete witnesses. -/
def sampleRunningScan : ScanSnapshot :=
  { scan_id := "s0", status := "running", resources := [], violations := []
    monthly_waste_estimate := 0 }

/-- Sample trend point used by concrete witnesses. -/
def samplePt (i : Nat) (at_ w : Rat) : TrendPoint :=
  { scan_index := i, started_at := at_, total_resources := 3
    total_violations := 1, critical_violations := 0, total_monthly_waste := w }

/-- C4: computeDiff fails with InvalidInputError whenever either input
snapshot has a status other than completed. -/
theorem computeDiff_error_of_not_completed (scanA scanB : ScanSnapshot)
    (h : scanA.status ≠ "completed" ∨ scanB.status ≠ "completed") :
    computeDiff scanA scanB = Except.error EngineError.invalidInput := by
  unfold computeDiff
  rcases h with h | h <;> simp [h]

/-- Witness for C4: a running baseline snapshot is rejected. -/
theorem computeDiff_error_of_not_completed_witness :
    computeDiff sampleRunningScan sampleScan = Except.error EngineError.invalidInput :=
  computeDiff_error_of_not_completed sampleRunningScan sampleScan (Or.inl (by decide))

/-- C5: computeForecast fails with InsufficientDataError on a series of
fewer than two points; in the Except result no forecast field exists on
the error branch, so nothing is fabricated. -/
theorem computeForecast_error_of_short_series (series : List TrendPoint) (savingsPct : Rat)
    (h : series.length < 2) :
    computeForecast series savingsPct = Except.error EngineError.insufficientData := by
  unfold computeForecast
  simp [h]

/-- Witness for C5: a one-point series is rejected. -/
theorem computeForecast_error_of_short_series_witness :
    computeForecast [samplePt 0 0 100] 60 = Except.error EngineError.insufficientData :=
  computeForecast_error_of_short_series [samplePt 0 0 100] 60 (by decide)

/-- C7: on any accepted series, none of the 30, 60 or 90 day forecasts
is negative. -/
theorem computeForecast_nonneg (series : List TrendPoint) (savingsPct : Rat)
    (h : 2 ≤ series.length) :
    ∃ r, computeForecast series savingsPct = Except.ok r ∧
      0 ≤ r.forecast_30d ∧ 0 ≤ r.forecast_60d ∧ 0 ≤ r.forecast_90d := by
  unfold computeForecast
  rw [if_neg (by omega)]
  exact ⟨_, rfl, le_max_left 0 _, le_max_left 0 _, le_max_left 0 _⟩

/-- Witness for C7: the forecasts of a concrete two-point series are
nonnegative. -/
theorem computeForecast_nonneg_witness :
    ∃ r, computeForecast [samplePt 0 0 100, samplePt 1 1 50] 60 = Except.ok r ∧
      0 ≤ r.forecast_30d ∧ 0 ≤ r.forecast_60d ∧ 0 ≤ r.forecast_90d :=
  computeForecast_nonneg [samplePt 0 0 100, samplePt 1 1 50] 60 (by decide)

/-- C3: on completed snapshots the diff is symmetric, the resources added
from A to B are exactly the resources removed from B to A and the new
violations from A to B are exactly the violations fixed from B to A, in
both directions. -/
theorem computeDiff_symmetry (scanA scanB : ScanSnapshot)
    (hA : scanA.status = "completed") (hB : scanB.status = "completed") :
    ∃ dAB dBA, computeDiff scanA scanB = Except.ok dAB ∧
      computeDiff scanB scanA = Except.ok dBA ∧
      dAB.added_resources = dBA.removed_resources ∧
      dBA.added_resources = dAB.removed_resources ∧
      dAB.new_violations = dBA.fixed_violations ∧
      dBA.new_violations = dAB.fixed_violations := by
  unfold computeDiff
  rw [hA, hB]
  simp only [beq_self_eq_true, Bool.and_self, if_true]
  exact ⟨_, _, rfl, rfl, rfl, rfl, rfl, rfl⟩

/-- Witness for C3: symmetry at two concrete completed snapshots. -/
theorem computeDiff_symmetry_witness :
    ∃ dAB dBA,
      computeDiff sampleScan { sampleScan with scan_id := "s2", resources := [sampleRes] } =
        Except.ok dAB ∧
      computeDiff { sampleScan with scan_id := "s2", resources := [sampleRes] } sampleScan =
        Except.ok dBA ∧
      dAB.added_resources = dBA.removed_resources ∧
      dBA.added_resources = dAB.removed_resources ∧
      dAB.new_violations = dBA.fixed_violations ∧
      dBA.new_violations = dAB.fixed_violations :=
  computeDiff_symmetry _ _ (by decide) (by decide)

/-- C9: the list ResourceFilter hands to onFiltered is an order-preserving
sublist of the input items, and with an empty trimmed query and the all
region selection it is the input list itself. -/
theorem resourceFilter_sublist_and_id (items : List ResourceRow) (query region : String)
    (extraFields : List String) :
    (resourceFilter items query region extraFields).Sublist items ∧
    (query.trim = "" → region = "all" →
      resourceFilter items query region extraFields = items) := by
  constructor
  · unfold resourceFilter
    by_cases hr : region == "all" <;> by_cases hq : query.trim == "" <;>
      simp only [hr, hq, if_true, if_false, Bool.false_eq_true, beq_iff_eq] <;>
      first
        | exact List.Sublist.refl _
        | exact List.filter_sublist _
        | exact (List.filter_sublist _).trans (List.filter_sublist _)
  · intro hq hr
    unfold resourceFilter
    simp [hq, hr]

/-- Sample table row used by concrete witnesses. -/
def sampleRow : ResourceRow :=
  { name := some "web", resource_id := "i-1", state := some "running"
    region := "us-east-1", raw_data := [] }

/-- Trimming the empty string yields the empty string. -/
theorem trim_of_empty : "".trim = "" := by
  rw [String.trim, Substring.trim, Substring.takeWhileAux, Substring.takeRightWhileAux]
  simp [String.toSubstring, String.endPos, String.utf8ByteSize, String.Pos.lt_iff,
    Substring.toString, String.extract]

/-- Witness for C9: at a concrete row, empty query and the all region the
filter output is the input list itself. -/
theorem resourceFilter_sublist_and_id_witness :
    resourceFilter [sampleRow] "" "all" [] = [sampleRow] :=
  (resourceFilter_sublist_and_id _ "" "all" []).2 trim_of_empty rfl

/-- C10: isAuthenticated is a total function that returns false for a
missing token, the empty token, a payload segment atob rejects, a payload
JSON.parse rejects and a payload without a numeric exp claim, and returns
true only when a stored token exists whose extracted payload decodes,
parses and carries a numeric exp with exp times 1000 strictly beyond the
current time. -/
theorem isAuthenticated_spec (atobF : String → Option String)
    (parseExpF : String → Option (Option Rat)) (token : Option String) (now : Rat) :
    (token = none → isAuthenticated atobF parseExpF token now = false) ∧
    (token = some "" → isAuthenticated atobF parseExpF token now = false) ∧
    (∀ t, token = some t → atobF (jwtSegment t) = none →
      isAuthenticated atobF parseExpF token now = false) ∧
    (∀ t p, token = some t → atobF (jwtSegment t) = some p → parseExpF p = none →
      isAuthenticated atobF parseExpF token now = false) ∧
    (∀ t p, token = some t → atobF (jwtSegment t) = some p → parseExpF p = some none →
      isAuthenticated atobF parseExpF token now = false) ∧
    (isAuthenticated atobF parseExpF token now = true →
      ∃ t p e, token = some t ∧ t ≠ "" ∧ atobF (jwtSegment t) = some p ∧
        parseExpF p = some (some e) ∧ e * 1000 > now) := by
  refine ⟨?_, ?_, ?_, ?_, ?_, ?_⟩
  · rintro rfl; rfl
  · rintro rfl; rfl
  · rintro t rfl ha
    by_cases ht : t = "" <;> simp [isAuthenticated, ht, ha]
  · rintro t p rfl ha hp
    by_cases ht : t = "" <;> simp [isAuthenticated, ht, ha, hp]
  · rintro t p rfl ha hp
    by_cases ht : t = "" <;> simp [isAuthenticated, ht, ha, hp]
  · intro htrue
    match token with
    | none => exact absurd htrue (by simp [isAuthenticated])
    | some t =>
      by_cases ht : t = ""
      · rw [ht] at htrue; exact absurd htrue (by simp [isAuthenticated])
      · match ha : atobF (jwtSegment t) with
        | none => simp [isAuthenticated, ht, ha] at htrue
        | some p =>
          match hp : parseExpF p with
          | none => simp [isAuthenticated, ht, ha, hp] at htrue
          | some none => simp [isAuthenticated, ht, ha, hp] at htrue
          | some (some e) =>
            refine ⟨t, p, e, rfl, ht, ha, hp, ?_⟩
            simpa [isAuthenticated, ht, ha, hp] using htrue

/-- Witness for C10: a missing token is rejected, at concrete builtin
stand-ins. -/
theorem isAuthenticated_spec_witness :
    isAuthenticated (fun _ => none) (fun _ => none) none 0 = false :=
  (isAuthenticated_spec (fun _ => none) (fun _ => none) none 0).1 rfl

/-- A record found in a list by resource key carries that key and belongs
to the list. -/
theorem find?_resKey_spec {l : List ResourceRecord} {r a : ResourceRecord}
    (h : l.find? (fun x => resKey x == resKey r) = some a) :
    a ∈ l ∧ resKey a = resKey r :=
  ⟨List.mem_of_find?_eq_some h, by simpa using List.find?_some h⟩

/-- With no duplicate resource keys, the record found for the key of a
member is that member itself. -/
theorem find?_resKey_self {l : List ResourceRecord} (hn : (l.map resKey).Nodup)
    {r a : ResourceRecord} (hr : r ∈ l)
    (h : l.find? (fun x => resKey x == resKey r) = some a) : a = r := by
  obtain ⟨hmem, hkey⟩ := find?_resKey_spec h
  exact List.inj_on_of_nodup_map hn hmem hr hkey

/-- C1: diffing a valid completed snapshot against itself yields empty
added, removed, state-change and violation sets and a zero waste delta.
Validity is the data-model invariant that resource keys are unique within
a scan. -/
theorem computeDiff_self (A : ScanSnapshot) (hA : A.status = "completed")
    (hnd : (A.resources.map resKey).Nodup) :
    ∃ d, computeDiff A A = Except.ok d ∧
      d.added_resources = [] ∧ d.removed_resources = [] ∧ d.state_changes = [] ∧
      d.new_violations = [] ∧ d.fixed_violations = [] ∧ d.waste_delta = 0 := by
  unfold computeDiff
  rw [hA]
  simp only [beq_self_eq_true, Bool.and_self, if_true]
  have hres : A.resources.filter (fun r => !(hasResKey A.resources (resKey r))) = [] := by
    refine List.filter_eq_nil_iff.mpr fun r hr => ?_
    simp only [hasResKey, Bool.not_eq_true', Bool.not_eq_false, List.any_eq_true]
    exact ⟨r, hr, by simp⟩
  have hvio : A.violations.filter (fun v => !(hasVioKey A.violations (vioKey v))) = [] := by
    refine List.filter_eq_nil_iff.mpr fun v hv => ?_
    simp only [hasVioKey, Bool.not_eq_true', Bool.not_eq_false, List.any_eq_true]
    exact ⟨v, hv, by simp⟩
  refine ⟨_, rfl, hres, hres, ?_, hvio, hvio, sub_self _⟩
  refine List.filterMap_eq_nil_iff.mpr fun r hr => ?_
  cases hf : A.resources.find? (fun x => resKey x == resKey r) with
  | none => rfl
  | some a =>
    have : a = r := find?_resKey_self hnd hr hf
    subst this
    simp

/-- Witness for C1: self-diff of a concrete completed snapshot. -/
theorem computeDiff_self_witness :
    ∃ d, computeDiff sampleScan sampleScan = Except.ok d ∧
      d.added_resources = [] ∧ d.removed_resources = [] ∧ d.state_changes = [] ∧
      d.new_violations = [] ∧ d.fixed_violations = [] ∧ d.waste_delta = 0 :=
  computeDiff_self sampleScan (by decide) (by decide)

/-- Summing a function that is constant on the members of a list. -/
theorem sum_map_const_of_mem {l : List TrendPoint} {w : Rat} {f : TrendPoint → Rat}
    (h : ∀ p ∈ l, f p = w) : (l.map f).sum = w * l.length := by
  induction l with
  | nil => simp
  | cons p t ih =>
    simp only [List.map_cons, List.sum_cons, List.length_cons]
    rw [h p (by simp), ih fun q hq => h q (by simp [hq])]
    push_cast
    ring

/-- Summing a product against a function that is constant on the members
of a list. -/
theorem sum_map_mul_const_of_mem {l : List TrendPoint} {w : Rat}
    {g f : TrendPoint → Rat} (h : ∀ p ∈ l, f p = w) :
    (l.map fun p => g p * f p).sum = w * (l.map g).sum := by
  induction l with
  | nil => simp
  | cons p t ih =>
    simp only [List.map_cons, List.sum_cons]
    rw [h p (by simp), ih fun q hq => h q (by simp [hq])]
    ring

/-- On a series whose waste values all equal w the least-squares slope is
zero. -/
theorem olsSlope_const {series : List TrendPoint} {w : Rat}
    (hconst : ∀ p ∈ series, p.total_monthly_waste = w) : olsSlope series = 0 := by
  unfold olsSlope
  simp only [sum_map_const_of_mem hconst,
    sum_map_mul_const_of_mem (g := fun p => (p.scan_index : Rat)) hconst]
  have hnum : (series.length : Rat) * (w * (series.map fun p => (p.scan_index : Rat)).sum) -
      (series.map fun p => (p.scan_index : Rat)).sum * (w * series.length) = 0 := by ring
  rw [hnum]
  simp

/-- On a nonempty series whose waste values all equal w the least-squares
intercept is w. -/
theorem olsIntercept_const {series : List TrendPoint} {w : Rat}
    (hne : series.length ≠ 0)
    (hconst : ∀ p ∈ series, p.total_monthly_waste = w) : olsIntercept series = w := by
  unfold olsIntercept
  rw [olsSlope_const hconst, sum_map_const_of_mem hconst]
  have : (series.length : Rat) ≠ 0 := Nat.cast_ne_zero.mpr hne
  field_simp

/-- The last point of a nonempty series is a member of it. -/
theorem lastPoint_mem {series : List TrendPoint} (hne : series ≠ []) :
    lastPoint series ∈ series := by
  unfold lastPoint
  rw [List.getLast?_eq_getLast series hne]
  exact List.getLast_mem hne

/-- C6: on a series of at least two points whose waste values are all the
same nonnegative w, computeForecast reports a zero slope, the stable
trend, and w for each of the 30, 60 and 90 day forecasts. -/
theorem computeForecast_const (series : List TrendPoint) (w : Rat)
    (hlen : 2 ≤ series.length) (hw : 0 ≤ w)
    (hconst : ∀ p ∈ series, p.total_monthly_waste = w) :
    ∃ r, computeForecast series 60 = Except.ok r ∧
      r.slope_per_period = 0 ∧ r.forecast_30d = w ∧ r.forecast_60d = w ∧
      r.forecast_90d = w ∧ r.trend = "stable" := by
  have hne : series ≠ [] := by
    intro h
    rw [h] at hlen
    simp at hlen
  have hcur : currentWaste series = w := hconst _ (lastPoint_mem hne)
  have hm : olsSlope series = 0 := olsSlope_const hconst
  have hb : olsIntercept series = w :=
    olsIntercept_const (by omega) hconst
  have hproj : ∀ days : Rat, projectWaste series days = w := by
    intro days
    unfold projectWaste
    rw [hm, hb]
    simp [max_eq_right hw]
  have htrend : classifyTrend (olsSlope series) (currentWaste series / 100) = "stable" := by
    rw [hm, hcur]
    unfold classifyTrend
    rw [if_neg (not_lt.mpr (div_nonneg hw (by norm_num))),
      if_neg (not_lt.mpr (neg_nonpos.mpr (div_nonneg hw (by norm_num))))]
  unfold computeForecast
  rw [if_neg (by omega)]
  exact ⟨_, rfl, hm, hproj 30, hproj 60, hproj 90, htrend⟩

/-- Witness for C6: a concrete two-point series with constant waste 5. -/
theorem computeForecast_const_witness :
    ∃ r, computeForecast [samplePt 0 0 5, samplePt 1 1 5] 60 = Except.ok r ∧
      r.slope_per_period = 0 ∧ r.forecast_30d = 5 ∧ r.forecast_60d = 5 ∧
      r.forecast_90d = 5 ∧ r.trend = "stable" :=
  computeForecast_const [samplePt 0 0 5, samplePt 1 1 5] 5 (by decide) (by norm_num)
    (by intro p hp; simp [samplePt] at hp; rcases hp with h | h <;> simp [h, samplePt])

/-- Taking up to the clamped bound equals taking up to the raw bound. -/
theorem take_min_length {α : Type} (l : List α) (b : Nat) :
    l.take (min b l.length) = l.take b := by
  rcases le_total b l.length with h | h
  · rw [min_eq_left h]
  · rw [min_eq_right h, List.take_length, List.take_of_length_le h]

/-- On natural bounds the JavaScript slice is a take followed by a
drop. -/
theorem jsSlice_natCast {α : Type} (l : List α) (a b : Nat) :
    jsSlice l (a : Int) (b : Int) = (l.take b).drop a := by
  simp only [jsSlice]
  rw [if_neg (by omega), if_neg (by omega)]
  have hs : (min (a : Int) (l.length : Int)).toNat = min a l.length := by omega
  have he : (min (b : Int) (l.length : Int)).toNat = min b l.length := by omega
  rw [hs, he, take_min_length]
  rcases le_total a l.length with h | h
  · rw [min_eq_left h]
  · rw [min_eq_right h]
    rw [List.drop_eq_nil_of_le (by simp), List.drop_eq_nil_of_le (by simp; omega)]

/-- Concatenating the first n chunks of size ps takes the first n times
ps elements. -/
theorem flatten_chunks_eq_take {α : Type} (ps : Nat) (l : List α) (n : Nat) :
    ((List.range n).map fun k => (l.drop (k * ps)).take ps).flatten = l.take (n * ps) := by
  induction n with
  | zero => simp
  | succ n ih =>
    rw [List.range_succ, List.map_append, List.flatten_append, ih]
    simp only [List.map_cons, List.map_nil, List.flatten_cons, List.flatten_nil,
      List.append_nil]
    rw [← List.take_add]
    congr 1
    ring

/-- The item count never exceeds totalPages times the page size. -/
theorem length_le_totalPages_mul {len ps : Nat} (hpos : 0 < ps) :
    len ≤ (max 1 ((len + ps - 1) / ps)) * ps := by
  rcases Nat.eq_zero_or_pos len with rfl | hlen
  · simp
  have h1 : len + ps - 1 = (len - 1) + ps := by omega
  rw [h1, Nat.add_div_right _ hpos]
  have hq : ps * ((len - 1) / ps) + (len - 1) % ps = len - 1 := Nat.div_add_mod _ _
  have hq' : (len - 1) / ps * ps + (len - 1) % ps = len - 1 := by
    rw [Nat.mul_comm] at hq
    exact hq
  have hr : (len - 1) % ps < ps := Nat.mod_lt _ hpos
  have hmax : max 1 ((len - 1) / ps + 1) = (len - 1) / ps + 1 :=
    max_eq_right (Nat.le_add_left 1 _)
  rw [hmax, Nat.add_mul, one_mul]
  generalize (len - 1) / ps * ps = P at hq' ⊢
  omega

/-- Counterexample to C8 as stated: at page 0 the hook returns effective
page 0, outside the claimed range from 1 to totalPages. -/
theorem usePagination_page_zero_counterexample :
    (usePagination [(0 : Nat)] 0 25).page = 0 ∧
      (usePagination [(0 : Nat)] 0 25).totalPages = 1 ∧
      ¬(1 ≤ (usePagination [(0 : Nat)] 0 25).page) := by
  refine ⟨rfl, rfl, ?_⟩
  decide

/-- C8 amended: for requested pages at least 1 and the offered page
sizes, usePagination clamps the effective page into the range from 1 to
totalPages, the slice never exceeds the page size, the slices of pages 1
through totalPages concatenate back to the item list, and an empty item
list yields an empty slice with a zero from bound. -/
theorem usePagination_correct {α : Type} (items : List α) (page : Int) (pageSize : Nat)
    (hps : pageSize ∈ ([25, 50, 100, 200] : List Nat)) (hpg : 1 ≤ page) :
    (1 ≤ (usePagination items page pageSize).page ∧
      (usePagination items page pageSize).page ≤
        ((usePagination items page pageSize).totalPages : Int)) ∧
    (usePagination items page pageSize).paged.length ≤ pageSize ∧
    ((List.range (usePagination items page pageSize).totalPages).map
        fun k : Nat => (usePagination items ((k + 1 : Nat) : Int) pageSize).paged).flatten =
      items ∧
    (items = [] → (usePagination items page pageSize).paged = [] ∧
      (usePagination items page pageSize).from_ = 0) := by
  have hpos : 0 < pageSize := by
    simp only [List.mem_cons, List.mem_singleton, List.not_mem_nil, or_false] at hps
    rcases hps with rfl | rfl | rfl | rfl <;> norm_num
  have hfield : ∀ q : Int,
      (usePagination items q pageSize).page =
        min q ((max 1 ((items.length + pageSize - 1) / pageSize) : Nat) : Int) ∧
      (usePagination items q pageSize).totalPages =
        max 1 ((items.length + pageSize - 1) / pageSize) ∧
      (usePagination items q pageSize).paged =
        jsSlice items
          ((min q ((max 1 ((items.length + pageSize - 1) / pageSize) : Nat) : Int) - 1) *
            (pageSize : Int))
          ((min q ((max 1 ((items.length + pageSize - 1) / pageSize) : Nat) : Int) - 1) *
            (pageSize : Int) + (pageSize : Int)) := by
    intro q
    exact ⟨rfl, rfl, rfl⟩
  obtain ⟨hpage, htotal, hpaged⟩ := hfield page
  have htp1 : 1 ≤ max 1 ((items.length + pageSize - 1) / pageSize) := le_max_left _ _
  have hsp1 : (1 : Int) ≤ min page ((max 1 ((items.length + pageSize - 1) / pageSize) : Nat) : Int) :=
    le_min hpg (by exact_mod_cast htp1)
  refine ⟨⟨by rw [hpage]; exact hsp1, by rw [hpage, htotal]; exact min_le_right _ _⟩, ?_, ?_, ?_⟩
  · -- slice length bound
    rw [hpaged]
    set sp := min page ((max 1 ((items.length + pageSize - 1) / pageSize) : Nat) : Int) with hspdef
    obtain ⟨s, hs⟩ := Int.eq_ofNat_of_zero_le (show (0 : Int) ≤ sp - 1 by omega)
    rw [hs, show ((s : Int)) * (pageSize : Int) = ((s * pageSize : Nat) : Int) by
        push_cast; ring,
      show ((s * pageSize : Nat) : Int) + (pageSize : Int) =
        ((s * pageSize + pageSize : Nat) : Int) by push_cast; ring,
      jsSlice_natCast, List.drop_take]
    simp only [Nat.add_sub_cancel_left, List.length_take]
    exact min_le_left _ _
  · -- concatenation over pages 1 .. totalPages
    rw [htotal]
    have hmap : (List.range (max 1 ((items.length + pageSize - 1) / pageSize))).map
          (fun k : Nat => (usePagination items ((k + 1 : Nat) : Int) pageSize).paged) =
        (List.range (max 1 ((items.length + pageSize - 1) / pageSize))).map
          (fun k => (items.drop (k * pageSize)).take pageSize) := by
      refine List.map_congr_left fun k hk => ?_
      have hk' : k + 1 ≤ max 1 ((items.length + pageSize - 1) / pageSize) := by
        rw [List.mem_range] at hk
        omega
      obtain ⟨hp, -, hpd⟩ := hfield (((k + 1 : Nat)) : Int)
      have hmin : min (((k + 1 : Nat)) : Int)
            ((max 1 ((items.length + pageSize - 1) / pageSize) : Nat) : Int) =
          (((k + 1 : Nat)) : Int) := min_eq_left (by exact_mod_cast hk')
      rw [hpd, hmin]
      rw [show ((((k + 1 : Nat)) : Int) - 1) * (pageSize : Int) = ((k * pageSize : Nat) : Int) by
        push_cast; ring]
      rw [show ((k * pageSize : Nat) : Int) + (pageSize : Int) =
          ((k * pageSize + pageSize : Nat) : Int) by push_cast; ring]
      rw [jsSlice_natCast, List.drop_take]
      simp only [Nat.add_sub_cancel_left]
    rw [hmap, flatten_chunks_eq_take]
    exact List.take_of_length_le (length_le_totalPages_mul hpos)
  · -- empty input
    rintro rfl
    refine ⟨?_, rfl⟩
    rw [hpaged]
    unfold jsSlice
    simp

/-- Witness for C8 amended: a concrete three-element list at page 2 and
page size 25. -/
theorem usePagination_correct_witness :
    (1 ≤ (usePagination [10, 20, 30] 2 25).page ∧
      (usePagination [10, 20, 30] 2 25).page ≤
        ((usePagination [10, 20, 30] 2 25).totalPages : Int)) ∧
    (usePagination [10, 20, 30] 2 25).paged.length ≤ 25 ∧
    ((List.range (usePagination [10, 20, 30] 2 25).totalPages).map
        fun k : Nat => (usePagination [10, 20, 30] ((k + 1 : Nat) : Int) 25).paged).flatten =
      [10, 20, 30] ∧
    ([10, 20, 30] = ([] : List Nat) → (usePagination [10, 20, 30] 2 25).paged = [] ∧
      (usePagination [10, 20, 30] 2 25).from_ = 0) :=
  usePagination_correct [10, 20, 30] 2 25 (by decide) (by decide)

/-- hasResKey answers exactly membership of the key among the mapped
keys. -/
theorem hasResKey_iff {l : List ResourceRecord} {k : String × String} :
    hasResKey l k = true ↔ k ∈ l.map resKey := by
  simp only [hasResKey, List.any_eq_true, beq_iff_eq, List.mem_map]

/-- Keys of the one-sided filter: in the filtered side, not in the
other. -/
theorem filter_keys_iff {X Y : List ResourceRecord} {k : String × String} :
    (k ∈ (X.filter fun r => !(hasResKey Y (resKey r))).map resKey ↔
      (k ∈ X.map resKey ∧ ¬ k ∈ Y.map resKey)) := by
  constructor
  · intro hk
    rw [List.mem_map] at hk
    obtain ⟨r, hr, rfl⟩ := hk
    rw [List.mem_filter] at hr
    obtain ⟨hrX, hcond⟩ := hr
    refine ⟨List.mem_map_of_mem _ hrX, fun hmem => ?_⟩
    rw [← hasResKey_iff] at hmem
    simp [hmem] at hcond
  · rintro ⟨hX, hY⟩
    rw [List.mem_map] at hX
    obtain ⟨r, hr, rfl⟩ := hX
    rw [List.mem_map]
    refine ⟨r, List.mem_filter.mpr ⟨hr, ?_⟩, rfl⟩
    simp only [Bool.not_eq_true', ← Bool.not_eq_true, hasResKey_iff]
    exact hY

/-- Keys of the state-change list: records of B whose key is found in A
with a differing normalized state. -/
theorem changes_keys_iff {A B : ScanSnapshot} {k : String × String} :
    (k ∈ ((B.resources.filterMap fun r =>
        match A.resources.find? (fun x => resKey x == resKey r) with
        | some a =>
          if normState a.state == normState r.state then none
          else some (mkStateChange a r)
        | none => none).map scKey) ↔
      ∃ r ∈ B.resources, resKey r = k ∧ ∃ a,
        A.resources.find? (fun x => resKey x == resKey r) = some a ∧
        ¬ normState a.state = normState r.state) := by
  rw [List.mem_map]
  constructor
  · rintro ⟨c, hc, rfl⟩
    rw [List.mem_filterMap] at hc
    obtain ⟨r, hr, hf⟩ := hc
    cases hfind : A.resources.find? (fun x => resKey x == resKey r) with
    | none => rw [hfind] at hf; cases hf
    | some a =>
      rw [hfind] at hf
      dsimp only at hf
      by_cases hst : normState a.state == normState r.state
      · rw [if_pos hst] at hf; cases hf
      · rw [if_neg hst] at hf
        cases hf
        exact ⟨r, hr, rfl, a, hfind, by simpa using hst⟩
  · rintro ⟨r, hr, rfl, a, hfind, hst⟩
    refine ⟨mkStateChange a r, ?_, rfl⟩
    rw [List.mem_filterMap]
    refine ⟨r, hr, ?_⟩
    rw [hfind]
    dsimp only
    rw [if_neg (by simpa using hst)]

/-- Keys of the unchanged list: records of B whose key is found in A
with an equal normalized state. -/
theorem unchanged_keys_iff {A B : ScanSnapshot} {k : String × String} :
    (k ∈ (unchangedResources A B).map resKey ↔
      ∃ r ∈ B.resources, resKey r = k ∧ ∃ a,
        A.resources.find? (fun x => resKey x == resKey r) = some a ∧
        normState a.state = normState r.state) := by
  unfold unchangedResources
  rw [List.mem_map]
  constructor
  · rintro ⟨r, hr, rfl⟩
    rw [List.mem_filter] at hr
    obtain ⟨hrB, hcond⟩ := hr
    cases hfind : A.resources.find? (fun x => resKey x == resKey r) with
    | none => rw [hfind] at hcond; cases hcond
    | some a =>
      rw [hfind] at hcond
      dsimp only at hcond
      exact ⟨r, hrB, rfl, a, hfind, by simpa using hcond⟩
  · rintro ⟨r, hr, rfl, a, hfind, hst⟩
    refine ⟨r, List.mem_filter.mpr ⟨hr, ?_⟩, rfl⟩
    rw [hfind]
    dsimp only
    simpa using hst

/-- A membership key always has a record found for it. -/
theorem find?_resKey_of_mem {l : List ResourceRecord} {r : ResourceRecord}
    (h : resKey r ∈ l.map resKey) :
    ∃ a, l.find? (fun x => resKey x == resKey r) = some a := by
  rw [← Option.isSome_iff_exists, List.find?_isSome]
  rw [List.mem_map] at h
  obtain ⟨a, ha, hk⟩ := h
  exact ⟨a, ha, by simp [hk]⟩

/-- The conservation and provenance facts of the diff components, stated
on the component lists themselves. -/
theorem conservation_parts (A B : ScanSnapshot)
    (hnB : (B.resources.map resKey).Nodup) :
    (∀ k, (k ∈ A.resources.map resKey ∨ k ∈ B.resources.map resKey) ↔
      (k ∈ (B.resources.filter fun r => !(hasResKey A.resources (resKey r))).map resKey ∨
       k ∈ (A.resources.filter fun r => !(hasResKey B.resources (resKey r))).map resKey ∨
       (k ∈ (B.resources.filterMap fun r =>
          match A.resources.find? (fun x => resKey x == resKey r) with
          | some a =>
            if normState a.state == normState r.state then none
            else some (mkStateChange a r)
          | none => none).map scKey) ∨
       k ∈ (unchangedResources A B).map resKey)) ∧
    (∀ k, k ∈ (B.resources.filter fun r => !(hasResKey A.resources (resKey r))).map resKey →
      ¬ k ∈ (A.resources.filter fun r => !(hasResKey B.resources (resKey r))).map resKey) ∧
    (∀ k, k ∈ (B.resources.filter fun r => !(hasResKey A.resources (resKey r))).map resKey →
      ¬ (k ∈ (B.resources.filterMap fun r =>
          match A.resources.find? (fun x => resKey x == resKey r) with
          | some a =>
            if normState a.state == normState r.state then none
            else some (mkStateChange a r)
          | none => none).map scKey)) ∧
    (∀ k, k ∈ (B.resources.filter fun r => !(hasResKey A.resources (resKey r))).map resKey →
      ¬ k ∈ (unchangedResources A B).map resKey) ∧
    (∀ k, k ∈ (A.resources.filter fun r => !(hasResKey B.resources (resKey r))).map resKey →
      ¬ (k ∈ (B.resources.filterMap fun r =>
          match A.resources.find? (fun x => resKey x == resKey r) with
          | some a =>
            if normState a.state == normState r.state then none
            else some (mkStateChange a r)
          | none => none).map scKey)) ∧
    (∀ k, k ∈ (A.resources.filter fun r => !(hasResKey B.resources (resKey r))).map resKey →
      ¬ k ∈ (unchangedResources A B).map resKey) ∧
    (∀ k, (k ∈ (B.resources.filterMap fun r =>
          match A.resources.find? (fun x => resKey x == resKey r) with
          | some a =>
            if normState a.state == normState r.state then none
            else some (mkStateChange a r)
          | none => none).map scKey) →
      ¬ k ∈ (unchangedResources A B).map resKey) := by
  refine ⟨?_, ?_, ?_, ?_, ?_, ?_, ?_⟩
  · intro k
    constructor
    · intro hk
      by_cases hkB : k ∈ B.resources.map resKey
      · by_cases hkA : k ∈ A.resources.map resKey
        · obtain ⟨r, hr, rfl⟩ := List.mem_map.mp hkB
          obtain ⟨a, hfind⟩ := find?_resKey_of_mem hkA
          by_cases hst : normState a.state = normState r.state
          · exact Or.inr (Or.inr (Or.inr
              (unchanged_keys_iff.mpr ⟨r, hr, rfl, a, hfind, hst⟩)))
          · exact Or.inr (Or.inr (Or.inl
              (changes_keys_iff.mpr ⟨r, hr, rfl, a, hfind, hst⟩)))
        · exact Or.inl (filter_keys_iff.mpr ⟨hkB, hkA⟩)
      · rcases hk with hkA | hkB'
        · exact Or.inr (Or.inl (filter_keys_iff.mpr ⟨hkA, hkB⟩))
        · exact absurd hkB' hkB
    · rintro (h | h | h | h)
      · exact Or.inr (filter_keys_iff.mp h).1
      · exact Or.inl (filter_keys_iff.mp h).1
      · obtain ⟨r, hr, rfl, -⟩ := changes_keys_iff.mp h
        exact Or.inr (List.mem_map_of_mem _ hr)
      · obtain ⟨r, hr, rfl, -⟩ := unchanged_keys_iff.mp h
        exact Or.inr (List.mem_map_of_mem _ hr)
  · intro k h1 h2
    exact (filter_keys_iff.mp h2).2 (filter_keys_iff.mp h1).1
  · intro k h1 h2
    obtain ⟨r, hr, rfl, a, hfind, -⟩ := changes_keys_iff.mp h2
    obtain ⟨ha, hak⟩ := find?_resKey_spec hfind
    exact (filter_keys_iff.mp h1).2 (hak ▸ List.mem_map_of_mem _ ha)
  · intro k h1 h2
    obtain ⟨r, hr, rfl, a, hfind, -⟩ := unchanged_keys_iff.mp h2
    obtain ⟨ha, hak⟩ := find?_resKey_spec hfind
    exact (filter_keys_iff.mp h1).2 (hak ▸ List.mem_map_of_mem _ ha)
  · intro k h1 h2
    obtain ⟨r, hr, rfl, -⟩ := changes_keys_iff.mp h2
    exact (filter_keys_iff.mp h1).2 (List.mem_map_of_mem _ hr)
  · intro k h1 h2
    obtain ⟨r, hr, rfl, -⟩ := unchanged_keys_iff.mp h2
    exact (filter_keys_iff.mp h1).2 (List.mem_map_of_mem _ hr)
  · intro k h1 h2
    obtain ⟨r1, hr1, hk1, a1, hfind1, hst1⟩ := changes_keys_iff.mp h1
    obtain ⟨r2, hr2, hk2, a2, hfind2, hst2⟩ := unchanged_keys_iff.mp h2
    have hkk : resKey r1 = resKey r2 := by rw [hk1, hk2]
    have hrr : r1 = r2 := List.inj_on_of_nodup_map hnB hr1 hr2 hkk
    subst hrr
    rw [hfind1] at hfind2
    cases hfind2
    exact hst1 hst2

/-- C2: on completed snapshots the added, removed, changed and unchanged
resource keys partition the union of the two key sets with no overlap
and no omission, and every record of the diff output comes literally from
A or from B; a state-change entry is assembled from one record of each.
Key uniqueness within the comparison snapshot is the data-model
invariant. -/
theorem computeDiff_conservation (A B : ScanSnapshot)
    (hA : A.status = "completed") (hB : B.status = "completed")
    (hnB : (B.resources.map resKey).Nodup) :
    ∃ d, computeDiff A B = Except.ok d ∧
      (∀ k, (k ∈ A.resources.map resKey ∨ k ∈ B.resources.map resKey) ↔
        (k ∈ d.added_resources.map resKey ∨ k ∈ d.removed_resources.map resKey ∨
         k ∈ d.state_changes.map scKey ∨ k ∈ (unchangedResources A B).map resKey)) ∧
      (∀ k, k ∈ d.added_resources.map resKey → ¬ k ∈ d.removed_resources.map resKey) ∧
      (∀ k, k ∈ d.added_resources.map resKey → ¬ k ∈ d.state_changes.map scKey) ∧
      (∀ k, k ∈ d.added_resources.map resKey →
        ¬ k ∈ (unchangedResources A B).map resKey) ∧
      (∀ k, k ∈ d.removed_resources.map resKey → ¬ k ∈ d.state_changes.map scKey) ∧
      (∀ k, k ∈ d.removed_resources.map resKey →
        ¬ k ∈ (unchangedResources A B).map resKey) ∧
      (∀ k, k ∈ d.state_changes.map scKey →
        ¬ k ∈ (unchangedResources A B).map resKey) ∧
      (∀ r ∈ d.added_resources, r ∈ B.resources) ∧
      (∀ r ∈ d.removed_resources, r ∈ A.resources) ∧
      (∀ v ∈ d.new_violations, v ∈ B.violations) ∧
      (∀ v ∈ d.fixed_violations, v ∈ A.violations) ∧
      (∀ c ∈ d.state_changes, ∃ a ∈ A.resources, ∃ b ∈ B.resources,
        resKey a = resKey b ∧ c = mkStateChange a b) := by
  unfold computeDiff
  rw [hA, hB]
  simp only [beq_self_eq_true, Bool.and_self, if_true]
  obtain ⟨h1, h2, h3, h4, h5, h6, h7⟩ := conservation_parts A B hnB
  refine ⟨_, rfl, h1, h2, h3, h4, h5, h6, h7, ?_, ?_, ?_, ?_, ?_⟩
  · exact fun r hr => List.mem_of_mem_filter hr
  · exact fun r hr => List.mem_of_mem_filter hr
  · exact fun v hv => List.mem_of_mem_filter hv
  · exact fun v hv => List.mem_of_mem_filter hv
  · intro c hc
    rw [List.mem_filterMap] at hc
    obtain ⟨r, hr, hf⟩ := hc
    cases hfind : A.resources.find? (fun x => resKey x == resKey r) with
    | none => rw [hfind] at hf; cases hf
    | some a =>
      rw [hfind] at hf
      dsimp only at hf
      by_cases hst : normState a.state == normState r.state
      · rw [if_pos hst] at hf; cases hf
      · rw [if_neg hst] at hf
        cases hf
        obtain ⟨ha, hak⟩ := find?_resKey_spec hfind
        exact ⟨a, ha, r, hr, hak, rfl⟩

/-- Second sample completed snapshot used by concrete witnesses. -/
def sampleScanB : ScanSnapshot :=
  { sampleScan with scan_id := "s2", resources := [sampleRes] }

/-- Witness for C2: conservation at two concrete completed snapshots. -/
theorem computeDiff_conservation_witness :
    ∃ d, computeDiff sampleScan sampleScanB = Except.ok d ∧
      (∀ k, (k ∈ sampleScan.resources.map resKey ∨
          k ∈ sampleScanB.resources.map resKey) ↔
        (k ∈ d.added_resources.map resKey ∨ k ∈ d.removed_resources.map resKey ∨
         k ∈ d.state_changes.map scKey ∨
         k ∈ (unchangedResources sampleScan sampleScanB).map resKey)) ∧
      (∀ k, k ∈ d.added_resources.map resKey → ¬ k ∈ d.removed_resources.map resKey) ∧
      (∀ k, k ∈ d.added_resources.map resKey → ¬ k ∈ d.state_changes.map scKey) ∧
      (∀ k, k ∈ d.added_resources.map resKey →
        ¬ k ∈ (unchangedResources sampleScan sampleScanB).map resKey) ∧
      (∀ k, k ∈ d.removed_resources.map resKey → ¬ k ∈ d.state_changes.map scKey) ∧
      (∀ k, k ∈ d.removed_resources.map resKey →
        ¬ k ∈ (unchangedResources sampleScan sampleScanB).map resKey) ∧
      (∀ k, k ∈ d.state_changes.map scKey →
        ¬ k ∈ (unchangedResources sampleScan sampleScanB).map resKey) ∧
      (∀ r ∈ d.added_resources, r ∈ sampleScanB.resources) ∧
      (∀ r ∈ d.removed_resources, r ∈ sampleScan.resources) ∧
      (∀ v ∈ d.new_violations, v ∈ sampleScanB.violations) ∧
      (∀ v ∈ d.fixed_violations, v ∈ sampleScan.violations) ∧
      (∀ c ∈ d.state_changes, ∃ a ∈ sampleScan.resources, ∃ b ∈ sampleScanB.resources,
        resKey a = resKey b ∧ c = mkStateChange a b) :=
  computeDiff_conservation sampleScan sampleScanB (by decide) (by decide) (by decide)
